import Mathlib

/-!
Verification of the frame-scheduling and detection pipeline of a WebRTC
object-detection web app.  The definitions below are a shallow embedding of
the relevant source functions:

* `preprocessImage` — letterbox geometry from `src/hooks/useObjectDetection.ts`
  (worker section), function `preprocessImage`;
* `nms`, `processOutput` — the detection decoder from the same file;
* `FrameProcessor.processFrame` — the bounded frame queue from the technical
  report's `FrameProcessor` class;
* `detectObjects` / the worker message handler — error containment at the
  inference boundary;
* `updateMetrics` — fps / median / p95 statistics from `src/hooks/useMetrics.ts`.

JavaScript numbers are embedded as rationals (`ℚ`); `Math.floor` is `Int.floor`,
`Math.round` is `jsRound` below.  Two places where the JS code is not a total
function are modelled explicitly: the IoU comparison (`0/0` is `NaN` and
`x/0` with `x > 0` is `+Infinity`, both of which compare `false` under `<=`,
see `iouLe`), and the suppression loop of `nms`, whose splice-based update
need not terminate — `jsNmsLoop` takes an iteration bound and returns `none`
for a run that has not finished within it.
-/

set_option maxRecDepth 8000

namespace WebRTCDetect

/-- JavaScript `Math.round` on a (nonnegative) rational: round half up. -/
def jsRound (q : ℚ) : ℤ := ⌊q + 1/2⌋

/-- Letterbox geometry produced by `preprocessImage`: uniform resize factor and
the two padding offsets of the centered image inside the square tensor. -/
structure Letterbox where
  scale : ℚ
  dx : ℤ
  dy : ℤ
deriving DecidableEq, Repr

/-- Geometry part of `preprocessImage(imageData, inputSize = 640)`:
`scale = Math.min(inputSize / width, inputSize / height)`,
`nw = Math.round(width * scale)`, `nh = Math.round(height * scale)`,
`dx = Math.floor((inputSize - nw) / 2)`, `dy = Math.floor((inputSize - nh) / 2)`.
The pixel/tensor fill is not needed by any claim and is omitted. -/
def preprocessImage (width height inputSize : ℚ) : Letterbox :=
  let scale := min (inputSize / width) (inputSize / height)
  let nw := jsRound (width * scale)
  let nh := jsRound (height * scale)
  { scale := scale
    dx := ⌊(inputSize - (nw : ℚ)) / 2⌋
    dy := ⌊(inputSize - (nh : ℚ)) / 2⌋ }

/-- Encode a source-normalized point into letterboxed tensor space using the
encoder's scale and padding: `X = dx + px · width · scale` (and likewise for y). -/
def encodePoint (p : ℚ × ℚ) (width height inputSize : ℚ) : ℚ × ℚ :=
  let lb := preprocessImage width height inputSize
  ((lb.dx : ℚ) + p.1 * width * lb.scale, (lb.dy : ℚ) + p.2 * height * lb.scale)

/-- Decoder's inverse mapping on a tensor-space point, as in `processOutput`:
subtract the padding, divide by the scale, then divide by the original
width/height to normalize (the clamping applies to boxes, not raw points). -/
def decodePoint (q : ℚ × ℚ) (width height inputSize : ℚ) : ℚ × ℚ :=
  let lb := preprocessImage width height inputSize
  (((q.1 - (lb.dx : ℚ)) / lb.scale) / width, ((q.2 - (lb.dy : ℚ)) / lb.scale) / height)

theorem preprocessImage_scale_pos {w h s : ℚ} (hw : 0 < w) (hh : 0 < h) (hs : 0 < s) :
    0 < (preprocessImage w h s).scale := by
  simp only [preprocessImage]
  exact lt_min (div_pos hs hw) (div_pos hs hh)

/-- C3: for any positive frame dimensions and any normalized point in `[0,1]²`,
encoding the point into letterboxed tensor space with the scale and padding
computed by `preprocessImage` and then applying the decoder's inverse mapping
returns the original point within `1e-3` (in fact exactly). -/
theorem letterbox_roundtrip (p : ℚ × ℚ) (w h s : ℚ)
    (hw : 0 < w) (hh : 0 < h) (hs : 0 < s)
    (hx0 : 0 ≤ p.1) (hx1 : p.1 ≤ 1) (hy0 : 0 ≤ p.2) (hy1 : p.2 ≤ 1) :
    |(decodePoint (encodePoint p w h s) w h s).1 - p.1| ≤ 1/1000 ∧
    |(decodePoint (encodePoint p w h s) w h s).2 - p.2| ≤ 1/1000 := by
  have hsc : (preprocessImage w h s).scale ≠ 0 :=
    ne_of_gt (preprocessImage_scale_pos hw hh hs)
  have hx : (decodePoint (encodePoint p w h s) w h s).1 = p.1 := by
    simp only [decodePoint, encodePoint]
    field_simp
  have hy : (decodePoint (encodePoint p w h s) w h s).2 = p.2 := by
    simp only [decodePoint, encodePoint]
    field_simp
  rw [hx, hy]
  norm_num

/-- Witness for C3 at `w = 640`, `h = 480`, `p = (1/4, 1/3)`. -/
theorem letterbox_roundtrip_witness :
    |(decodePoint (encodePoint (1/4, 1/3) 640 480 640) 640 480 640).1 - 1/4| ≤ 1/1000 ∧
    |(decodePoint (encodePoint (1/4, 1/3) 640 480 640) 640 480 640).2 - 1/3| ≤ 1/1000 :=
  letterbox_roundtrip (1/4, 1/3) 640 480 640 (by norm_num) (by norm_num) (by norm_num)
    (by norm_num) (by norm_num) (by norm_num) (by norm_num)

/-- C4, counterexample: for a 3×7 frame with `inputSize = 640` the code's
`pad_x = ⌊(640 - round(3·scale))/2⌋ = 183`, while the claimed formula
`⌊(640 - 3·scale)/2⌋` gives `182`. -/
theorem letterbox_pad_counterexample :
    (preprocessImage 3 7 640).dx = 183 ∧
    ⌊((640 : ℚ) - 3 * (preprocessImage 3 7 640).scale) / 2⌋ = 182 ∧
    (183 : ℤ) ≠ 182 := by
  refine ⟨?_, ?_, by decide⟩
  · norm_num [preprocessImage, jsRound]
  · norm_num [preprocessImage]

/-- C4, amended: the letterbox parameters satisfy `scale = min(S/width, S/height)`
and `pad_x = ⌊(S - round(width·scale))/2⌋` (the drawn width is rounded to whole
pixels before the padding is computed), `pad_y` analogous; in particular a
640×480 frame with `S = 640` yields `scale = 1`, `pad_x = 0`, `pad_y = 80`. -/
theorem letterbox_params :
    (∀ w h s : ℚ,
      (preprocessImage w h s).scale = min (s / w) (s / h) ∧
      (preprocessImage w h s).dx
        = ⌊(s - ((jsRound (w * min (s / w) (s / h))) : ℚ)) / 2⌋ ∧
      (preprocessImage w h s).dy
        = ⌊(s - ((jsRound (h * min (s / w) (s / h))) : ℚ)) / 2⌋) ∧
    preprocessImage 640 480 640 = ⟨1, 0, 80⟩ := by
  constructor
  · intro w h s
    exact ⟨rfl, rfl, rfl⟩
  · norm_num [preprocessImage, jsRound]

/-! ### Detection decoder: boxes, IoU, non-maximum suppression -/

/-- Corner-form candidate box in letterboxed-pixel space, `[x1, y1, x2, y2]`. -/
structure Box where
  x1 : ℚ
  y1 : ℚ
  x2 : ℚ
  y2 : ℚ
deriving DecidableEq, Repr, Inhabited

/-- Box area as computed in `nms`: `(box[2] - box[0]) * (box[3] - box[1])`. -/
def area (b : Box) : ℚ := (b.x2 - b.x1) * (b.y2 - b.y1)

/-- Intersection area as computed in the `nms` loop, with the width and height
of the overlap clamped at 0. -/
def interArea (a b : Box) : ℚ :=
  max 0 (min a.x2 b.x2 - max a.x1 b.x1) * max 0 (min a.y2 b.y2 - max a.y1 b.y1)

/-- Denominator of the IoU quotient: `areas[i] + areas[idx] - inter`. -/
def iouDen (a b : Box) : ℚ := area a + area b - interArea a b

/-- The value the claims call "IoU", mapping a zero denominator to 0. -/
def iouQ (a b : Box) : ℚ :=
  if iouDen a b = 0 then 0 else interArea a b / iouDen a b

/-- The JS test `iou <= iouThreshold` in `nms`.  When the denominator is zero
the JS quotient is `NaN` (`0/0`) or `+Infinity` (positive intersection), and in
either case the comparison is `false`; otherwise it is the exact rational test. -/
def iouLe (a b : Box) (t : ℚ) : Bool :=
  if iouDen a b = 0 then false else decide (interArea a b / iouDen a b ≤ t)

/-- The suppression loop of `nms` as the source executes it: push `order[0]`
to the output, build `newOrder` from the tail by the IoU keep-test, then
`order.splice(0, 1, ...newOrder)` — which removes only the head and leaves the
unfiltered tail in place, so `order` becomes `newOrder ++ tail`.  Candidates
dropped from `newOrder` thus reappear when the stale tail is reached again,
and the loop need not terminate at all (with three mutually disjoint
candidates `order` grows without bound).  `fuel` bounds the number of loop
iterations; `none` models a run that has not finished within `fuel`
iterations. -/
def jsNmsLoop (boxes : List Box) (t : ℚ) : ℕ → List ℕ → Option (List ℕ)
  | _, [] => some []
  | 0, _ :: _ => none
  | fuel + 1, i :: rest =>
    (jsNmsLoop boxes t fuel
        (rest.filter (fun j => iouLe (boxes.getD i default) (boxes.getD j default) t)
          ++ rest)).map
      (fun out => i :: out)

/-- Index order used by `nms`: `scores.map((_, i) => i).sort((a, b) => scores[b] - scores[a])`,
a stable sort of the candidate indices by descending score. -/
def nmsOrder (scores : List ℚ) : List ℕ :=
  (List.range scores.length).mergeSort
    (fun a b => decide (scores.getD b 0 ≤ scores.getD a 0))

/-- The `nms(boxes, scores, iouThreshold = 0.45)` function with the source's
splice semantics: the list of pushed indices, or `none` when the loop has not
terminated within `fuel` iterations. -/
def jsNms (boxes : List Box) (scores : List ℚ) (t : ℚ) (fuel : ℕ) : Option (List ℕ) :=
  jsNmsLoop boxes t fuel (nmsOrder scores)

/-! ### Detection decoder: `processOutput` -/

/-- COCO class names, indexed by class id. -/
def CLASS_NAMES : List String :=
  ["person", "bicycle", "car", "motorcycle", "airplane", "bus", "train", "truck",
   "boat", "traffic light", "fire hydrant", "stop sign", "parking meter", "bench",
   "bird", "cat", "dog", "horse", "sheep", "cow", "elephant", "bear", "zebra",
   "giraffe", "backpack", "umbrella", "handbag", "tie", "suitcase", "frisbee",
   "skis", "snowboard", "sports ball", "kite", "baseball bat", "baseball glove",
   "skateboard", "surfboard", "tennis racket", "bottle", "wine glass", "cup",
   "fork", "knife", "spoon", "bowl", "banana", "apple", "sandwich", "orange",
   "broccoli", "carrot", "hot dog", "pizza", "donut", "cake", "chair", "couch",
   "potted plant", "bed", "dining table", "toilet", "tv", "laptop", "mouse",
   "remote", "keyboard", "cell phone", "microwave", "oven", "toaster", "sink",
   "refrigerator", "book", "clock", "vase", "scissors", "teddy bear", "hair drier",
   "toothbrush"]

/-- Inner loop of `processOutput` over the 80 class channels of anchor `i`:
running maximum score and its class index, starting from `(0, 0)`, updated
only on a strictly larger score. -/
def maxClassScore (data : ℕ → ℚ) (n i : ℕ) : ℚ × ℕ :=
  (List.range 80).foldl
    (fun acc j => if acc.1 < data (i + (4 + j) * n) then (data (i + (4 + j) * n), j) else acc)
    (0, 0)

/-- One confidence-thresholded candidate: corner-form box in letterboxed-pixel
space, its max class score and the class index. -/
structure Cand where
  box : Box
  score : ℚ
  classId : ℕ
deriving DecidableEq, Repr, Inhabited

/-- Candidate-building loop of `processOutput`: for each anchor read the
center-form box and the best class score, keep the anchor when
`maxScore > 0.25`, and convert to corner form. -/
def candidates (data : ℕ → ℚ) (n : ℕ) : List Cand :=
  (List.range n).filterMap (fun i =>
    let x := data i
    let y := data (i + n)
    let w := data (i + 2 * n)
    let h := data (i + 3 * n)
    let m := maxClassScore data n i
    if 1/4 < m.1 then
      some { box := { x1 := x - w / 2, y1 := y - h / 2, x2 := x + w / 2, y2 := y + h / 2 }
             score := m.1
             classId := m.2 }
    else none)

/-- Detection emitted by the decoder, coordinates normalized to the source frame. -/
structure DetectionBox where
  label : String
  score : ℚ
  xmin : ℚ
  ymin : ℚ
  xmax : ℚ
  ymax : ℚ
deriving DecidableEq, Repr, Inhabited

/-- The `processOutput(output, scale, dx, dy, originalWidth, originalHeight)`
decoder: threshold by confidence, run the source's `nms` at
`iouThreshold = 0.45`, then for each pushed index unletterbox the corners and
normalize, clamping the min coordinates at 0 from below and the max
coordinates at 1 from above.  `data` is the flat output tensor, `n` its anchor
count (`dims[2]`), and `fuel` the iteration bound of the suppression loop
(`none` when that loop has not terminated). -/
def processOutput (data : ℕ → ℚ) (n : ℕ) (scale dx dy origW origH : ℚ) (fuel : ℕ) :
    Option (List DetectionBox) :=
  let cands := candidates data n
  let boxes := cands.map (fun c => c.box)
  let scores := cands.map (fun c => c.score)
  (jsNms boxes scores (9/20) fuel).map (fun keep =>
    keep.map (fun idx =>
      let b := boxes.getD idx default
      let x1 := (b.x1 - dx) / scale
      let y1 := (b.y1 - dy) / scale
      let x2 := (b.x2 - dx) / scale
      let y2 := (b.y2 - dy) / scale
      { label := CLASS_NAMES.getD (cands.getD idx default).classId ""
        score := scores.getD idx 0
        xmin := max 0 (x1 / origW)
        ymin := max 0 (y1 / origH)
        xmax := min 1 (x2 / origW)
        ymax := min 1 (y2 / origH) }))

/-! ### Properties of the IoU test and of the suppression loop -/

theorem jsNmsLoop_nil (boxes : List Box) (t : ℚ) (fuel : ℕ) :
    jsNmsLoop boxes t fuel [] = some [] := by
  cases fuel <;> rfl

theorem jsNmsLoop_subset (boxes : List Box) (t : ℚ) :
    ∀ (fuel : ℕ) (l out : List ℕ), jsNmsLoop boxes t fuel l = some out →
      ∀ j ∈ out, j ∈ l := by
  intro fuel
  induction fuel with
  | zero =>
    intro l out h j hj
    cases l with
    | nil =>
      rw [jsNmsLoop_nil] at h
      obtain rfl := (Option.some.inj h).symm
      simp at hj
    | cons i rest => simp [jsNmsLoop] at h
  | succ fuel ih =>
    intro l out h j hj
    cases l with
    | nil =>
      rw [jsNmsLoop_nil] at h
      obtain rfl := (Option.some.inj h).symm
      simp at hj
    | cons i rest =>
      simp only [jsNmsLoop, Option.map_eq_some'] at h
      obtain ⟨out', hout', rfl⟩ := h
      rcases List.mem_cons.mp hj with rfl | hj'
      · exact List.mem_cons_self _ _
      · have hmem := ih _ _ hout' j hj'
        rcases List.mem_append.mp hmem with hf | hr
        · exact List.mem_cons_of_mem i (List.mem_filter.mp hf).1
        · exact List.mem_cons_of_mem i hr

theorem jsNmsLoop_cons (boxes : List Box) (t : ℚ) (fuel : ℕ) (i : ℕ)
    (rest out : List ℕ) (h : jsNmsLoop boxes t fuel (i :: rest) = some out) :
    ∃ out', out = i :: out' := by
  cases fuel with
  | zero => simp [jsNmsLoop] at h
  | succ fuel =>
    simp only [jsNmsLoop, Option.map_eq_some'] at h
    obtain ⟨out', _, rfl⟩ := h
    exact ⟨out', rfl⟩

unseal Rat.sub Rat.add Rat.mul Rat.inv List.merge List.mergeSort in
/-- C2 (code bug): the claimed NMS invariant — no two surviving boxes with
pairwise IoU above `iouThreshold` — is violated by the source.
`order.splice(0, 1, ...newOrder)` deletes only the head and leaves the
unfiltered tail in `order`, so a candidate dropped from `newOrder` is pushed
anyway when the stale tail is reached: for the overlapping boxes
`[0,0,10,10]` and `[2,0,12,10]` with IoU `2/3 > 0.45` the loop returns
`[0, 1]` — both survive. -/
theorem nms_overlap_bug :
    jsNms [⟨0,0,10,10⟩, ⟨2,0,12,10⟩] [9/10, 8/10] (9/20) 4 = some [0, 1] ∧
    9/20 < iouQ ⟨0,0,10,10⟩ ⟨2,0,12,10⟩ := by decide

/-- Helper for the zero-area analysis: a box of zero area has zero
intersection area with every box. -/
theorem interArea_eq_zero (a b : Box) (ha : area a = 0) : interArea a b = 0 := by
  rcases mul_eq_zero.mp ha with h | h
  · have hx : min a.x2 b.x2 - max a.x1 b.x1 ≤ 0 := by
      have h1 : min a.x2 b.x2 ≤ a.x2 := min_le_left _ _
      have h2 : a.x1 ≤ max a.x1 b.x1 := le_max_left _ _
      have h3 : a.x2 = a.x1 := by linarith [sub_eq_zero.mp h]
      linarith
    simp [interArea, max_eq_left hx]
  · have hy : min a.y2 b.y2 - max a.y1 b.y1 ≤ 0 := by
      have h1 : min a.y2 b.y2 ≤ a.y2 := min_le_left _ _
      have h2 : a.y1 ≤ max a.y1 b.y1 := le_max_left _ _
      have h3 : a.y2 = a.y1 := by linarith [sub_eq_zero.mp h]
      linarith
    simp [interArea, max_eq_left hy]

unseal Rat.sub Rat.add Rat.mul Rat.inv in
/-- C5, counterexample: for a pair of two zero-area boxes the IoU used by the
suppression test is not 0.  The denominator `area_a + area_b - inter` is 0, the
JS quotient is `0/0 = NaN`, and the keep-test `iou <= iouThreshold` evaluates
false — whereas an IoU of 0 would satisfy `0 ≤ 0.45` and keep the candidate. -/
theorem iou_nan_counterexample :
    iouLe ⟨0,0,0,0⟩ ⟨0,0,0,0⟩ (9/20) = false ∧
    iouDen ⟨0,0,0,0⟩ ⟨0,0,0,0⟩ = 0 ∧
    ((0:ℚ) ≤ 9/20) := by decide

/-- C5, amended: when exactly one box of the pair has zero area, the IoU used
by the suppression test is 0 and the test keeps the candidate (for any
nonnegative threshold); when both boxes of the pair have zero area, the
denominator is zero, the JS quotient is `NaN`, and the keep-test evaluates
false rather than behaving as IoU 0. -/
theorem iou_zero_area (a b : Box) (t : ℚ) :
    (area a = 0 → area b ≠ 0 → iouQ a b = 0 ∧ (0 ≤ t → iouLe a b t = true)) ∧
    (area a = 0 → area b = 0 → iouLe a b t = false) := by
  constructor
  · intro ha hb
    have hinter : interArea a b = 0 := interArea_eq_zero a b ha
    have hden : iouDen a b = area b := by
      simp [iouDen, ha, hinter]
    constructor
    · simp [iouQ, hden, hb, hinter]
    · intro ht
      simp only [iouLe, hden, if_neg hb, hinter, zero_div, decide_eq_true_eq]
      exact ht
  · intro ha hb
    have hinter : interArea a b = 0 := interArea_eq_zero a b ha
    have hden : iouDen a b = 0 := by
      simp [iouDen, ha, hb, hinter]
    simp [iouLe, hden]

/-- Witness for C5 (amended): a zero-width box against a 10×10 box passes the
keep-test with IoU 0; two zero-area boxes fail it. -/
theorem iou_zero_area_witness :
    iouQ ⟨0,0,0,5⟩ ⟨0,0,10,10⟩ = 0 ∧ iouLe ⟨0,0,0,5⟩ ⟨0,0,10,10⟩ (9/20) = true ∧
    iouLe ⟨0,0,0,3⟩ ⟨1,1,1,4⟩ (9/20) = false := by
  have h1 := (iou_zero_area ⟨0,0,0,5⟩ ⟨0,0,10,10⟩ (9/20)).1
    (by norm_num [area]) (by norm_num [area])
  have h2 := (iou_zero_area ⟨0,0,0,3⟩ ⟨1,1,1,4⟩ (9/20)).2
    (by norm_num [area]) (by norm_num [area])
  exact ⟨h1.1, h1.2 (by norm_num), h2⟩

theorem nmsOrder_pairwise (scores : List ℚ) :
    (nmsOrder scores).Pairwise (fun a b => scores.getD b 0 ≤ scores.getD a 0) := by
  have h := @List.sorted_mergeSort ℕ
    (fun a b => decide (scores.getD b 0 ≤ scores.getD a 0))
    (fun a b c h1 h2 => by
      simp only [decide_eq_true_eq] at h1 h2 ⊢
      exact le_trans h2 h1)
    (fun a b => by
      simp only [Bool.or_eq_true, decide_eq_true_eq]
      exact le_total _ _)
    (List.range scores.length)
  exact h.imp (fun hab => by simpa using hab)

/-- Raw output tensor with three anchors decoding to the chain of boxes
`[0,0,10,10]`, `[2,0,12,10]`, `[4,0,14,10]` with class-0 confidences
`0.9`, `0.8`, `0.7`. -/
def chainTensor : ℕ → ℚ := fun k =>
  if k = 0 then 5 else if k = 1 then 7 else if k = 2 then 9 else
  if k ≤ 5 then 5 else
  if k ≤ 8 then 10 else
  if k ≤ 11 then 10 else
  if k = 12 then 9/10 else if k = 13 then 8/10 else if k = 14 then 7/10 else 0

unseal Rat.sub Rat.add Rat.mul Rat.inv List.merge List.mergeSort in
/-- C10, counterexample: on `chainTensor` the decoder terminates and emits
scores `[0.9, 0.7, 0.8, 0.7]` (pushed indices `[0, 2, 1, 2]`) — not sorted in
non-increasing order, and with a candidate emitted twice — because the
suppression loop re-examines the unfiltered tail. -/
theorem processOutput_not_sorted_counterexample :
    (processOutput chainTensor 3 1 0 0 640 640 6).isSome = true ∧
    ((processOutput chainTensor 3 1 0 0 640 640 6).getD []).map DetectionBox.score
      = [9/10, 7/10, 8/10, 7/10] ∧
    ¬ ([9/10, 7/10, 8/10, (7:ℚ)/10]).Sorted (fun a b => b ≤ a) := by
  refine ⟨by decide, by decide, fun hs => ?_⟩
  have h := (List.sorted_cons.mp (List.sorted_cons.mp hs).2).1 (8/10) (by simp)
  norm_num at h

/-- C10, amended: in every terminating run of the decoder, every emitted
detection has score at most the first emitted detection's score (the loop
pushes the head of the descending-confidence order first, and every later
pushed index comes from that order); the full sequence is not sorted in
non-increasing score order in general and can repeat a candidate, because the
suppression loop keeps the unfiltered tail. -/
theorem processOutput_first_score_max (data : ℕ → ℚ) (n : ℕ)
    (scale dx dy origW origH : ℚ) (fuel : ℕ) (out : List DetectionBox)
    (h : processOutput data n scale dx dy origW origH fuel = some out)
    (d : DetectionBox) (hd : d ∈ out) :
    d.score ≤ (out.getD 0 default).score := by
  simp only [processOutput, jsNms, Option.map_eq_some'] at h
  obtain ⟨keep, hkeep, rfl⟩ := h
  rcases horder : nmsOrder ((candidates data n).map (fun c => c.score)) with _ | ⟨i, rest⟩
  · rw [horder, jsNmsLoop_nil] at hkeep
    obtain rfl := (Option.some.inj hkeep).symm
    simp at hd
  · rw [horder] at hkeep
    obtain ⟨keep', rfl⟩ := jsNmsLoop_cons _ _ _ _ _ _ hkeep
    simp only [List.map_cons, List.getD_cons_zero] at hd ⊢
    rcases List.mem_cons.mp hd with rfl | hd'
    · exact le_refl _
    · obtain ⟨idx, hidx, rfl⟩ := List.mem_map.mp hd'
      have hidxmem : idx ∈ i :: rest :=
        jsNmsLoop_subset _ _ _ _ _ hkeep idx (List.mem_cons_of_mem i hidx)
      have hp := nmsOrder_pairwise ((candidates data n).map (fun c => c.score))
      rw [horder] at hp
      rcases List.mem_cons.mp hidxmem with rfl | hmem
      · exact le_refl _
      · exact (List.pairwise_cons.mp hp).1 idx hmem

unseal Rat.sub Rat.add Rat.mul Rat.inv List.merge List.mergeSort in
/-- Witness for C10 (amended), applying it to the decoder's output on
`chainTensor` at the second emitted detection. -/
theorem processOutput_first_score_max_witness :
    (((processOutput chainTensor 3 1 0 0 640 640 6).getD []).getD 1 default).score
      ≤ (((processOutput chainTensor 3 1 0 0 640 640 6).getD []).getD 0 default).score :=
  processOutput_first_score_max chainTensor 3 1 0 0 640 640 6
    ((processOutput chainTensor 3 1 0 0 640 640 6).getD []) (by decide)
    (((processOutput chainTensor 3 1 0 0 640 640 6).getD []).getD 1 default) (by decide)

/-- Raw output tensor with a single anchor whose box lies far outside the
source frame: center `(10000, 320)`, size `10×10`, class-0 confidence `0.9`. -/
def outOfFrameTensor : ℕ → ℚ := fun k =>
  if k = 0 then 10000 else if k = 1 then 320 else
  if k = 2 then 10 else if k = 3 then 10 else
  if k = 4 then 9/10 else 0

unseal Rat.sub Rat.add Rat.mul Rat.inv List.merge List.mergeSort in
/-- C1, counterexample: decoding `outOfFrameTensor` on a 640×640 frame with
identity letterboxing terminates and emits a detection whose
`xmin = 9995/640 > 1` — the min coordinates are clamped only from below and
the max coordinates only from above, so a box outside the source frame
violates the `[0,1]` bound. -/
theorem processOutput_unit_range_counterexample :
    (processOutput outOfFrameTensor 1 1 0 0 640 640 2).isSome = true ∧
    ∃ d ∈ (processOutput outOfFrameTensor 1 1 0 0 640 640 2).getD [], 1 < d.xmin := by
  refine ⟨by decide, ?_⟩
  decide

/-- C1, amended: in every terminating run of the decoder, every emitted
detection satisfies the one-sided clamps `0 ≤ xmin`, `0 ≤ ymin`, `xmax ≤ 1`,
`ymax ≤ 1`; the two-sided `[0,1]` bound and `xmin < xmax`, `ymin < ymax` can
fail for boxes that decode outside the source frame. -/
theorem processOutput_half_clamped (data : ℕ → ℚ) (n : ℕ)
    (scale dx dy origW origH : ℚ) (fuel : ℕ) (out : List DetectionBox)
    (h : processOutput data n scale dx dy origW origH fuel = some out)
    (d : DetectionBox) (hd : d ∈ out) :
    0 ≤ d.xmin ∧ 0 ≤ d.ymin ∧ d.xmax ≤ 1 ∧ d.ymax ≤ 1 := by
  simp only [processOutput, Option.map_eq_some'] at h
  obtain ⟨keep, _, rfl⟩ := h
  simp only [List.mem_map] at hd
  obtain ⟨idx, _, rfl⟩ := hd
  exact ⟨le_max_left 0 _, le_max_left 0 _, min_le_left 1 _, min_le_left 1 _⟩

/-- Raw output tensor with a single in-frame anchor: center `(320, 320)`,
size `100×100`, class-0 confidence `0.9`. -/
def inFrameTensor : ℕ → ℚ := fun k =>
  if k = 0 then 320 else if k = 1 then 320 else
  if k = 2 then 100 else if k = 3 then 100 else
  if k = 4 then 9/10 else 0

unseal Rat.sub Rat.add Rat.mul Rat.inv List.merge List.mergeSort in
/-- Witness for C1 (amended), applying it to the decoder's output on
`inFrameTensor`. -/
theorem processOutput_half_clamped_witness :
    0 ≤ (((processOutput inFrameTensor 1 1 0 0 640 640 2).getD []).getD 0 default).xmin ∧
    0 ≤ (((processOutput inFrameTensor 1 1 0 0 640 640 2).getD []).getD 0 default).ymin ∧
    (((processOutput inFrameTensor 1 1 0 0 640 640 2).getD []).getD 0 default).xmax ≤ 1 ∧
    (((processOutput inFrameTensor 1 1 0 0 640 640 2).getD []).getD 0 default).ymax ≤ 1 :=
  processOutput_half_clamped inFrameTensor 1 1 0 0 640 640 2
    ((processOutput inFrameTensor 1 1 0 0 640 640 2).getD []) (by decide)
    (((processOutput inFrameTensor 1 1 0 0 640 640 2).getD []).getD 0 default) (by decide)

/-! ### Frame scheduler: bounded queue with drop-oldest admission -/

namespace FrameProcessor

/-- The `FrameProcessor.processFrame(frame)` admission step on the queue state:
`if (this.frameQueue.length >= this.maxQueueSize) this.frameQueue.shift();
this.frameQueue.push(frame);` — drop the oldest frame when full, then append. -/
def processFrame (maxQueueSize : ℕ) (queue : List ℕ) (frame : ℕ) : List ℕ :=
  let queue' := if maxQueueSize ≤ queue.length then queue.drop 1 else queue
  queue' ++ [frame]

/-- Admitting a whole sequence of frames, starting from an empty queue. -/
def admitAll (maxQueueSize : ℕ) (frames : List ℕ) : List ℕ :=
  frames.foldl (processFrame maxQueueSize) []

theorem processFrame_length_le (K : ℕ) (hK : 1 ≤ K) (q : List ℕ) (f : ℕ)
    (hq : q.length ≤ K) : (processFrame K q f).length ≤ K := by
  simp only [processFrame, List.length_append, List.length_cons, List.length_nil]
  split
  · next h =>
    simp only [List.length_drop]
    omega
  · next h => omega

theorem foldl_processFrame_length_le (K : ℕ) (hK : 1 ≤ K) :
    ∀ (frames : List ℕ) (q : List ℕ), q.length ≤ K →
      (frames.foldl (processFrame K) q).length ≤ K
  | [], q, hq => hq
  | f :: frames, q, hq =>
    foldl_processFrame_length_le K hK frames (processFrame K q f)
      (processFrame_length_le K hK q f hq)

/-- C6: for every sequence of admitted frames the queue length never exceeds
the capacity `K ≥ 1` (admission to a full queue evicts the oldest frame before
appending), and with `K = 3` admitting `[1,2,3,4]` leaves the queue `[2,3,4]`. -/
theorem queue_bound (K : ℕ) (hK : 1 ≤ K) (frames : List ℕ) :
    (admitAll K frames).length ≤ K ∧ admitAll 3 [1, 2, 3, 4] = [2, 3, 4] := by
  constructor
  · exact foldl_processFrame_length_le K hK frames [] (by simp)
  · decide

/-- Witness for C6 at `K = 3` with five admitted frames. -/
theorem queue_bound_witness :
    (admitAll 3 [1, 2, 3, 4, 5]).length ≤ 3 ∧ admitAll 3 [1, 2, 3, 4] = [2, 3, 4] :=
  queue_bound 3 (by decide) [1, 2, 3, 4, 5]

end FrameProcessor

/-! ### Inference boundary: per-frame failures are contained -/

/-- Result message published by the worker for one frame. -/
structure FrameResult where
  frameId : ℕ
  detections : List DetectionBox
deriving DecidableEq, Repr, Inhabited

/-- The worker's per-frame handler: the whole preprocess / run / decode pass
is wrapped in `try`; on an `InferenceError` (any exception from the run call)
the `catch` branch posts a result with an empty detections list instead of
rethrowing.  `infer` abstracts the fallible pass body. -/
def handleFrame (infer : ℕ → Except Unit (List DetectionBox)) (frameId : ℕ) :
    FrameResult :=
  match infer frameId with
  | .ok dets => { frameId := frameId, detections := dets }
  | .error _ => { frameId := frameId, detections := [] }

/-- Processing a stream of frames: each frame produces exactly one published
result, failing or not. -/
def runPipeline (infer : ℕ → Except Unit (List DetectionBox)) (frames : List ℕ) :
    List FrameResult :=
  frames.map (handleFrame infer)

/-- C7: a backend failure on one frame is caught at the call boundary — that
frame's published result carries an empty detections list — and every frame
of the stream still gets exactly one result, so the per-frame failure never
terminates the pipeline. -/
theorem pipeline_contains_failures (infer : ℕ → Except Unit (List DetectionBox))
    (frames : List ℕ) :
    (runPipeline infer frames).length = frames.length ∧
    ∀ i : ℕ, i < frames.length → infer (frames.getD i 0) = .error () →
      (runPipeline infer frames).getD i default
        = { frameId := frames.getD i 0, detections := [] } := by
  constructor
  · simp [runPipeline]
  · intro i hi herr
    have hlen : i < (runPipeline infer frames).length := by
      simpa [runPipeline] using hi
    rw [List.getD_eq_getElem _ _ hlen, List.getD_eq_getElem _ _ hi] at *
    simp only [runPipeline, List.getElem_map]
    simp [handleFrame, herr]

/-- Witness for C7: the backend fails on frame 7 in the stream `[6,7,8]`; the
second result is `{frame_id: 7, detections: []}` and three results are
published. -/
theorem pipeline_contains_failures_witness :
    (runPipeline (fun n => if n = 7 then .error () else .ok []) [6, 7, 8]).length = 3 ∧
    (runPipeline (fun n => if n = 7 then .error () else .ok []) [6, 7, 8]).getD 1 default
      = { frameId := 7, detections := [] } := by
  have h := pipeline_contains_failures
    (fun n => if n = 7 then .error () else .ok []) [6, 7, 8]
  exact ⟨h.1, h.2 1 (by decide) (by rfl)⟩

/-! ### Metrics pipeline: fps, median and p95 latency -/

/-- Aggregate statistics published by `updateMetrics`. -/
structure MetricsOut where
  fps : ℚ
  median : ℚ
  p95 : ℚ
deriving DecidableEq, Repr

/-- The statistics part of `updateMetrics` in `useMetrics.ts`:
`fps = frameCount / Math.max(elapsed, 1)`; the latency buffer is copied and
sorted ascending; `median = sorted[Math.floor(len/2)] || 0` and
`p95 = sorted[Math.floor(len*0.95)] || 0` (a missing element yields 0, and
`Math.floor(len*0.95) = 19*len/20` exactly for every buffer the 100-sample
window can produce). -/
def updateMetrics (frameCount : ℕ) (elapsed : ℚ) (latencyMeasurements : List ℚ) :
    MetricsOut :=
  let sorted := latencyMeasurements.mergeSort (fun a b => decide (a ≤ b))
  { fps := (frameCount : ℚ) / max elapsed 1
    median := sorted.getD (sorted.length / 2) 0
    p95 := sorted.getD (19 * sorted.length / 20) 0 }

/-- C8: the median and p95 latencies are read off a sorted copy of the sample
buffer at indices `⌊M/2⌋` and `⌊M·0.95⌋`; the empty buffer yields zeros, and
the samples `[10,20,30,40,50]` give median 30 and p95 50. -/
theorem updateMetrics_latency_stats (frameCount : ℕ) (elapsed : ℚ)
    (samples : List ℚ) :
    (∃ s : List ℚ, s.Perm samples ∧ s.Sorted (· ≤ ·) ∧
      (updateMetrics frameCount elapsed samples).median = s.getD (s.length / 2) 0 ∧
      (updateMetrics frameCount elapsed samples).p95 = s.getD (19 * s.length / 20) 0) ∧
    (updateMetrics 5 10 [10, 20, 30, 40, 50]).median = 30 ∧
    (updateMetrics 5 10 [10, 20, 30, 40, 50]).p95 = 50 ∧
    (updateMetrics 0 10 []).median = 0 ∧
    (updateMetrics 0 10 []).p95 = 0 := by
  refine ⟨⟨samples.mergeSort (fun a b => decide (a ≤ b)), ?_, ?_, rfl, rfl⟩, ?_, ?_, ?_, ?_⟩
  · exact List.mergeSort_perm samples _
  · have h := @List.sorted_mergeSort ℚ (fun a b => decide (a ≤ b))
      (fun a b c h1 h2 => by
        simp only [decide_eq_true_eq] at h1 h2 ⊢
        exact le_trans h1 h2)
      (fun a b => by
        simp only [Bool.or_eq_true, decide_eq_true_eq]
        exact le_total _ _)
      samples
    exact h.imp (fun hab => by simpa using hab)
  · show (List.mergeSort [10, 20, 30, 40, 50] _).getD _ 0 = 30
    rw [List.mergeSort_eq_self (by norm_num [List.Sorted])]
    norm_num
  · show (List.mergeSort [10, 20, 30, 40, 50] _).getD _ 0 = 50
    rw [List.mergeSort_eq_self (by norm_num [List.Sorted])]
    norm_num
  · simp [updateMetrics]
  · simp [updateMetrics]

/-- C9, counterexample: half a second after start with one processed frame the
code reports `fps = 1/max(1/2, 1) = 1`, not `framesProcessed/elapsed = 2`. -/
theorem fps_counterexample :
    (updateMetrics 1 (1/2) []).fps = 1 ∧ (1 : ℚ) / (1/2) = 2 ∧ (1 : ℚ) ≠ 2 := by
  refine ⟨?_, by norm_num, by norm_num⟩
  show (1 : ℚ) / max (1/2) 1 = 1
  norm_num

/-- C9, amended: the reported fps is `framesProcessed / max(elapsedSeconds, 1)`;
it equals `framesProcessed / elapsedSeconds` whenever at least one second has
elapsed since streaming started. -/
theorem fps_eq_frames_div_elapsed (frameCount : ℕ) (elapsed : ℚ)
    (samples : List ℚ) (h : 1 ≤ elapsed) :
    (updateMetrics frameCount elapsed samples).fps = (frameCount : ℚ) / elapsed := by
  simp only [updateMetrics]
  rw [max_eq_left h]

/-- Witness for C9 (amended) at 30 frames over 2 seconds. -/
theorem fps_eq_frames_div_elapsed_witness :
    (updateMetrics 30 2 []).fps = (30 : ℚ) / 2 :=
  fps_eq_frames_div_elapsed 30 2 [] (by norm_num)

end WebRTCDetect
